import Mathlib

/-!
# Verification of the WXYC streaming-decoder boundary contract

The repository fragment under verification consists of two C headers:

* `FFStreamingDecoder.h` — the opaque-handle streaming decoder boundary
  (`ffsd_open`, `ffsd_close`, `ffsd_get_sample_rate`, `ffsd_get_channels`,
  `ffsd_get_is_interleaved`, `ffsd_decode_next`);
* `CMiniMP3.h` — the minimp3 compatibility shim.

The implementations of the `ffsd_*` functions live in a prebuilt vendored
framework whose source is not part of the fragment; only the header contract
is. Consequently the operational definitions below are modelled from the
specification's words (each such definition says so in its doc comment), and
the headers' declared types and documented return conventions are embedded
faithfully.

Samples are Float32 in the C contract; no arithmetic is ever performed on
sample values at this boundary, so the embedding is parametric in the sample
type `α` (instantiated at `Int` in concrete witnesses).
-/

namespace WXYC

/-- A decoded block as produced through `ffsd_decode_next`'s out-parameters:
`channels` models the array of per-channel sample buffers received through
`outData`, and `frames` the frame count received through `outFrames`. -/
structure Block (α : Type) where
  channels : List (List α)
  frames : Nat
deriving DecidableEq, Repr

/-- What lies past the last decodable block of a stream: clean end-of-stream,
or a decode failure. A failure's reported return code is `-(n+1)`, which keeps
the header's convention that error codes are strictly negative while leaving
the particular code unspecified. -/
inductive StreamTail where
  | eof : StreamTail
  | error (n : Nat) : StreamTail
deriving DecidableEq, Repr

/-- Modelled from the spec: the caller-visible state of one live
`FFStreamingDecoder` handle — the decoder-owned sequence of decodable blocks,
the current decode position, and what follows the last block. The decoder owns
`blocks`; `ffsd_decode_next` only hands out views into it. -/
structure DecoderState (α : Type) where
  blocks : List (Block α)
  pos : Nat
  tail : StreamTail
deriving DecidableEq, Repr

/-- A block is well formed when it carries a strictly positive frame count and
exactly 2 per-channel buffers of exactly `frames` samples each (planar stereo
Float32, per the header's documented output format). -/
def BlockWF {α : Type} (b : Block α) : Prop :=
  0 < b.frames ∧ b.channels.length = 2 ∧ ∀ c ∈ b.channels, c.length = b.frames

/-- A decoder state is well formed when every decodable block it owns is. -/
def DecoderWF {α : Type} (s : DecoderState α) : Prop :=
  ∀ b ∈ s.blocks, BlockWF b

instance {α : Type} [DecidableEq α] (b : Block α) : Decidable (BlockWF b) := by
  unfold BlockWF; infer_instance

instance {α : Type} [DecidableEq α] (s : DecoderState α) : Decidable (DecoderWF s) := by
  unfold DecoderWF; infer_instance

/-- `ffsd_get_sample_rate`: per the header, "Gets the sample rate of the
output audio (always 48000)". Modelled from the spec: the implementation is
not in the fragment; the spec fixes the value at 48000 for every live handle. -/
def ffsd_get_sample_rate {α : Type} (_decoder : DecoderState α) : Int := 48000

/-- `ffsd_get_channels`: per the header, "Gets the number of output channels
(always 2 for stereo)". Modelled from the spec: fixed at 2. -/
def ffsd_get_channels {α : Type} (_decoder : DecoderState α) : Int := 2

/-- `ffsd_get_is_interleaved`: per the header, "always false - planar output".
Modelled from the spec: fixed at `false`. -/
def ffsd_get_is_interleaved {α : Type} (_decoder : DecoderState α) : Bool := false

/-- The result of one `ffsd_decode_next` call: the integer return code, the
value received through `outData` (absent when the call does not produce a
block), the value received through `outFrames`, and the decoder state after
the call. -/
structure DecodeResult (α : Type) where
  code : Int
  outData : Option (List (List α))
  outFrames : Nat
  state : DecoderState α
deriving DecidableEq, Repr

/-- `ffsd_decode_next`. Modelled from the spec: the implementation is not in
the fragment; per the header, the call returns the number of frames decoded
(positive) together with the next block through the out-parameters, returns 0
at end of stream, and returns a strictly negative code on decode failure. A
successful call advances the decode position by one block and changes nothing
else; at end of stream or on failure the state is left as it is (resources
remain held until `ffsd_close`). -/
def ffsd_decode_next {α : Type} (s : DecoderState α) : DecodeResult α :=
  match s.blocks[s.pos]? with
  | some b =>
      { code := (b.frames : Int), outData := some b.channels, outFrames := b.frames,
        state := { s with pos := s.pos + 1 } }
  | none =>
      match s.tail with
      | .eof => { code := 0, outData := none, outFrames := 0, state := s }
      | .error n => { code := -((n : Int) + 1), outData := none, outFrames := 0, state := s }

/-- The decoder state after `k` successive `ffsd_decode_next` calls. -/
def decodeIter {α : Type} (s : DecoderState α) : Nat → DecoderState α
  | 0 => s
  | k + 1 => decodeIter (ffsd_decode_next s).state k

/-- The return code of the `(k+1)`-th `ffsd_decode_next` call in a run that
starts from `s`. -/
def codeAt {α : Type} (s : DecoderState α) (k : Nat) : Int :=
  (ffsd_decode_next (decodeIter s k)).code

/-- Boolean prefix test on character lists (used for the URL scheme check). -/
def isPrefixList : List Char → List Char → Bool
  | [], _ => true
  | _ :: _, [] => false
  | a :: as, b :: bs => a == b && isPrefixList as bs

/-- Per the header, `ffsd_open` accepts "http://, https://, or file://"
locators: the locator is supported exactly when it starts with one of those
three scheme markers. -/
def schemeSupported (url : String) : Bool :=
  isPrefixList "http://".data url.data ||
  isPrefixList "https://".data url.data ||
  isPrefixList "file://".data url.data

/-- What a locator addresses: nothing reachable, an unparseable container, or
a decodable stream of blocks followed by its tail. -/
inductive MediaResource (α : Type) where
  | unreachable : MediaResource α
  | malformed : MediaResource α
  | stream (blocks : List (Block α)) (tail : StreamTail) : MediaResource α
deriving DecidableEq, Repr

/-- The ambient world: what each locator string addresses. -/
def World (α : Type) : Type := String → MediaResource α

/-- The caller-visible state of the process using the decoder library: the
table of live handles (identifier paired with decoder state), the next fresh
handle identifier, and a count of the underlying resource sets (I/O plus
decode buffers) currently acquired. -/
structure SysState (α : Type) where
  handles : List (Nat × DecoderState α)
  nextId : Nat
  acquired : Nat
deriving DecidableEq, Repr

/-- `ffsd_open`. Modelled from the spec: the implementation is not in the
fragment. An unsupported scheme, an unreachable resource, or a malformed
container header yields `none` (the NULL handle) and leaves the system
untouched — no resources are acquired and no partial handle exists. Success
installs a fully initialised handle for the addressed stream and acquires one
resource set. -/
def ffsd_open {α : Type} (world : World α) (sys : SysState α) (url : String) :
    Option Nat × SysState α :=
  if schemeSupported url then
    match world url with
    | .stream blocks tail =>
        (some sys.nextId,
          { handles := (sys.nextId, ⟨blocks, 0, tail⟩) :: sys.handles,
            nextId := sys.nextId + 1,
            acquired := sys.acquired + 1 })
    | _ => (none, sys)
  else (none, sys)

/-- `ffsd_close`. Modelled from the spec: the implementation is not in the
fragment. Per the header the handle "may be NULL": a `none` handle is a
no-op. Closing a live handle removes it from the table and releases its
resource set; closing an identifier that is not live changes nothing. -/
def ffsd_close {α : Type} (sys : SysState α) (h : Option Nat) : SysState α :=
  match h with
  | none => sys
  | some id =>
      if (sys.handles.lookup id).isSome then
        { sys with
          handles := sys.handles.filter (fun p => p.1 != id),
          acquired := sys.acquired - 1 }
      else sys

/-- The lifecycle phases of one decoder handle, from the spec's state machine
`Unopened → Open(success) → Ready ⇄ Decoding → (EndOfStream | Failure) →
Closed` (the transient `Decoding` phase is collapsed into the decode
transitions out of `Ready`). -/
inductive Phase where
  | unopened : Phase
  | ready : Phase
  | eos : Phase
  | failed : Phase
  | closed : Phase
deriving DecidableEq, Repr

/-- The operations appearing as labels of lifecycle transitions. -/
inductive Op where
  | openOk : Op
  | openFail : Op
  | decodeOk : Op
  | decodeEof : Op
  | decodeErr : Op
  | close : Op
deriving DecidableEq, Repr

/-- Modelled from the spec: the permitted transitions of the handle lifecycle
state machine. A failed open yields no handle (stays `unopened`); repeated
decodes loop on `ready` until end-of-stream or failure; `close` is the only
operation out of `eos` and `failed`, and `closed` is terminal. -/
inductive Step : Phase → Op → Phase → Prop where
  | open_ok : Step .unopened .openOk .ready
  | open_fail : Step .unopened .openFail .unopened
  | dec_ok : Step .ready .decodeOk .ready
  | dec_eof : Step .ready .decodeEof .eos
  | dec_err : Step .ready .decodeErr .failed
  | close_ready : Step .ready .close .closed
  | close_eos : Step .eos .close .closed
  | close_failed : Step .failed .close .closed

/-- Reachability in the lifecycle state machine. -/
inductive Reaches : Phase → Phase → Prop where
  | refl (p : Phase) : Reaches p p
  | step {p q r : Phase} {o : Op} : Step p o q → Reaches q r → Reaches p r

/-- The sample format minimp3 compiles with. -/
inductive CSampleFormat where
  | float32 : CSampleFormat
  | int16 : CSampleFormat
deriving DecidableEq, Repr

/-- The preprocessor-relevant directives of `CMiniMP3.h`. -/
inductive CDirective where
  | defineMacro (name : String) : CDirective
  | includeMinimp3 : CDirective
  | includeMinimp3Ex : CDirective
deriving DecidableEq, Repr

/-- The directives of `CMiniMP3.h` in source order: the include-guard define,
the `MINIMP3_FLOAT_OUTPUT` define, then the two minimp3 includes. -/
def cMiniMP3Directives : List CDirective :=
  [.defineMacro "CMINIMP3_H",
   .defineMacro "MINIMP3_FLOAT_OUTPUT",
   .includeMinimp3,
   .includeMinimp3Ex]

/-- Preprocessing state while reading the shim header: the macros defined so
far, and the sample format minimp3 was compiled with, once it has been
included. -/
structure CppState where
  macros : List String
  minimp3SampleFormat : Option CSampleFormat
deriving DecidableEq, Repr

/-- Modelled from the spec: `minimp3.h` itself is not under `src/`. Per the
shim's own comment ("Enable float output for better compatibility with
AVAudioEngine") and the boundary's Float32 sample contract, including minimp3
fixes its output sample type to Float32 exactly when `MINIMP3_FLOAT_OUTPUT`
is defined at inclusion time, and to 16-bit integers otherwise. A define adds
its macro; `minimp3_ex.h` adds no sample-format choice of its own. -/
def stepDirective (st : CppState) : CDirective → CppState
  | .defineMacro n => { st with macros := n :: st.macros }
  | .includeMinimp3 =>
      { st with minimp3SampleFormat :=
          if st.macros.contains "MINIMP3_FLOAT_OUTPUT" then some .float32
          else some .int16 }
  | .includeMinimp3Ex => st

/-- The preprocessing state after reading a whole list of directives. -/
def runDirectives (l : List CDirective) : CppState :=
  l.foldl stepDirective ⟨[], none⟩

/-- A concrete well-formed stereo block (2 channels, 2 frames). -/
def sampleBlock : Block Int := ⟨[[1, 2], [3, 4]], 2⟩

/-- A concrete decoder state holding one block and a clean end-of-stream. -/
def sampleState : DecoderState Int := ⟨[sampleBlock], 0, .eof⟩

/-- A concrete world: one reachable valid stream, everything else absent. -/
def sampleWorld : World Int := fun url =>
  if url = "http://validstream/audio.mp3" then .stream [sampleBlock] .eof
  else .unreachable

/-- A concrete system state with handle 0 live. -/
def sampleSys : SysState Int := ⟨[(0, sampleState)], 1, 1⟩

/-- The empty system state. -/
def sys0 : SysState Int := ⟨[], 0, 0⟩

/-- One decode call never touches the decoder-owned block sequence. -/
theorem decode_state_blocks {α : Type} (s : DecoderState α) :
    (ffsd_decode_next s).state.blocks = s.blocks := by
  unfold ffsd_decode_next
  rcases hb : s.blocks[s.pos]? with _ | b
  · rcases ht : s.tail with _ | n <;> simp [ht]
  · rfl

/-- One decode call never changes the stream tail. -/
theorem decode_state_tail {α : Type} (s : DecoderState α) :
    (ffsd_decode_next s).state.tail = s.tail := by
  unfold ffsd_decode_next
  rcases hb : s.blocks[s.pos]? with _ | b
  · rcases ht : s.tail with _ | n <;> simp [ht]
  · rfl

/-- Past the last block, one decode call leaves the state exactly as it is. -/
theorem decode_state_of_exhausted {α : Type} (s : DecoderState α)
    (h : s.blocks.length ≤ s.pos) : (ffsd_decode_next s).state = s := by
  unfold ffsd_decode_next
  rw [List.getElem?_eq_none h]
  rcases ht : s.tail with _ | n <;> simp [ht]

/-- Iterated decoding never touches the decoder-owned block sequence. -/
theorem decodeIter_blocks {α : Type} (k : Nat) (s : DecoderState α) :
    (decodeIter s k).blocks = s.blocks := by
  induction k generalizing s with
  | zero => rfl
  | succ k ih =>
      rw [decodeIter, ih (ffsd_decode_next s).state, decode_state_blocks]

/-- Iterated decoding never changes the stream tail. -/
theorem decodeIter_tail {α : Type} (k : Nat) (s : DecoderState α) :
    (decodeIter s k).tail = s.tail := by
  induction k generalizing s with
  | zero => rfl
  | succ k ih =>
      rw [decodeIter, ih (ffsd_decode_next s).state, decode_state_tail]

/-- After `k` decode calls the decode position has advanced by `k`, clamped at
the number of decodable blocks. -/
theorem decodeIter_pos {α : Type} (k : Nat) (s : DecoderState α)
    (h : s.pos ≤ s.blocks.length) :
    (decodeIter s k).pos = min (s.pos + k) s.blocks.length := by
  induction k generalizing s with
  | zero => simp [decodeIter]; omega
  | succ k ih =>
      rw [decodeIter]
      by_cases hlt : s.pos < s.blocks.length
      · have hb : s.blocks[s.pos]? = some s.blocks[s.pos] :=
          List.getElem?_eq_getElem hlt
        have hstate : (ffsd_decode_next s).state = { s with pos := s.pos + 1 } := by
          unfold ffsd_decode_next; rw [hb]
        rw [hstate]
        have := ih { s with pos := s.pos + 1 } (by simpa using hlt)
        simp only at this ⊢
        rw [this]
        omega
      · have heq : s.pos = s.blocks.length := by omega
        rw [decode_state_of_exhausted s (by omega), ih s h]
        omega

/-- Looking up an identifier in a table filtered of that identifier fails. -/
theorem lookup_filter_ne {α : Type} (l : List (Nat × DecoderState α)) (id : Nat) :
    (l.filter (fun p => p.1 != id)).lookup id = none := by
  induction l with
  | nil => rfl
  | cons q rest ih =>
      rcases q with ⟨k, v⟩
      by_cases h : k = id
      · subst h
        simpa [List.filter_cons] using ih
      · have hk : (k != id) = true := by simpa using h
        have hk2 : (id == k) = false := by
          simp [Ne.symm h]
        simp [List.filter_cons, hk, List.lookup, hk2, ih]

/-- C1: for every live handle, `ffsd_get_sample_rate` returns 48000,
`ffsd_get_channels` returns 2 and `ffsd_get_is_interleaved` returns `false`,
and the three values are unchanged by any number of `ffsd_decode_next` calls
on that handle. -/
theorem wxyc_C1 {α : Type} (s : DecoderState α) (k : Nat) :
    ffsd_get_sample_rate (decodeIter s k) = 48000 ∧
    ffsd_get_channels (decodeIter s k) = 2 ∧
    ffsd_get_is_interleaved (decodeIter s k) = false :=
  ⟨rfl, rfl, rfl⟩

/-- C2: on a well-formed handle, the return code of `ffsd_decode_next` is
strictly positive exactly when a block was decoded, exactly zero exactly at
clean end-of-stream, and strictly negative exactly on decode failure; in
particular end-of-stream is never reported as a failure. -/
theorem wxyc_C2 {α : Type} (s : DecoderState α) (hwf : DecoderWF s) :
    (0 < (ffsd_decode_next s).code ↔ s.pos < s.blocks.length) ∧
    ((ffsd_decode_next s).code = 0 ↔
      s.blocks.length ≤ s.pos ∧ s.tail = StreamTail.eof) ∧
    ((ffsd_decode_next s).code < 0 ↔
      s.blocks.length ≤ s.pos ∧ ∃ n, s.tail = StreamTail.error n) := by
  unfold ffsd_decode_next
  rcases hb : s.blocks[s.pos]? with _ | b
  · have hlen : s.blocks.length ≤ s.pos := by
      simpa using List.getElem?_eq_none_iff.mp hb
    rcases ht : s.tail with _ | n <;> simp [ht] <;> omega
  · have hlt : s.pos < s.blocks.length := by
      rcases List.getElem?_eq_some.mp hb with ⟨hl, _⟩
      exact hl
    have hmem : b ∈ s.blocks := by
      rcases List.getElem?_eq_some.mp hb with ⟨hl, he⟩
      exact he ▸ List.getElem_mem hl
    have hf : 0 < b.frames := (hwf b hmem).1
    have hfz : (0 : Int) < (b.frames : Int) := by exact_mod_cast hf
    simp only
    refine ⟨iff_of_true hfz hlt, ?_, ?_⟩
    · exact iff_of_false (by omega) (fun h => by omega)
    · exact iff_of_false (by omega) (fun h => by omega)

/-- C2 witness: the trichotomy evaluated on a concrete one-block stream. -/
theorem wxyc_C2_witness :
    DecoderWF sampleState ∧
    ((0 < (ffsd_decode_next sampleState).code ↔
        sampleState.pos < sampleState.blocks.length) ∧
     ((ffsd_decode_next sampleState).code = 0 ↔
        sampleState.blocks.length ≤ sampleState.pos ∧
          sampleState.tail = StreamTail.eof) ∧
     ((ffsd_decode_next sampleState).code < 0 ↔
        sampleState.blocks.length ≤ sampleState.pos ∧
          ∃ n, sampleState.tail = StreamTail.error n)) :=
  ⟨by decide, wxyc_C2 sampleState (by decide)⟩

/-- C4: closing a NULL/absent handle is a no-op on every system state: it
changes nothing and is a total, well-defined operation. -/
theorem wxyc_C4 {α : Type} (sys : SysState α) : ffsd_close sys none = sys := rfl

/-- C5: whenever `ffsd_decode_next` succeeds (returns a positive code), the
code equals the frame count written to `outFrames`, and `outData` receives
exactly 2 per-channel sample buffers. -/
theorem wxyc_C5 {α : Type} (s : DecoderState α) (hwf : DecoderWF s)
    (hpos : 0 < (ffsd_decode_next s).code) :
    (ffsd_decode_next s).code = ((ffsd_decode_next s).outFrames : Int) ∧
    ∃ chans, (ffsd_decode_next s).outData = some chans ∧ chans.length = 2 := by
  unfold ffsd_decode_next at hpos ⊢
  rcases hb : s.blocks[s.pos]? with _ | b
  · rw [hb] at hpos
    rcases ht : s.tail with _ | n
    · rw [ht] at hpos
      simp at hpos
    · rw [ht] at hpos
      simp at hpos
      omega
  · rw [hb] at hpos
    have hmem : b ∈ s.blocks := by
      rcases List.getElem?_eq_some.mp hb with ⟨hl, he⟩
      exact he ▸ List.getElem_mem hl
    exact ⟨rfl, b.channels, rfl, (hwf b hmem).2.1⟩

/-- C5 witness: a successful decode on a concrete stream returns code 2,
writes 2 to `outFrames` and hands out 2 channel buffers. -/
theorem wxyc_C5_witness :
    DecoderWF sampleState ∧ 0 < (ffsd_decode_next sampleState).code ∧
    ((ffsd_decode_next sampleState).code =
        ((ffsd_decode_next sampleState).outFrames : Int) ∧
     ∃ chans, (ffsd_decode_next sampleState).outData = some chans ∧
        chans.length = 2) :=
  ⟨by decide, by decide, wxyc_C5 sampleState (by decide) (by decide)⟩

/-- C6: in the lifecycle state machine, the only transition permitted out of
the `failed` phase is `close`, which leads to `closed`: a decode failure ends
the handle's usable decoding lifetime while `close` remains valid. -/
theorem wxyc_C6 (o : Op) (p : Phase) (h : Step Phase.failed o p) :
    o = Op.close ∧ p = Phase.closed := by
  cases h
  exact ⟨rfl, rfl⟩

/-- C6 witness: `close` out of `failed` is indeed a permitted transition, and
the theorem applies to it. -/
theorem wxyc_C6_witness :
    Step Phase.failed Op.close Phase.closed ∧
    (Op.close = Op.close ∧ Phase.closed = Phase.closed) :=
  ⟨Step.close_failed, wxyc_C6 Op.close Phase.closed Step.close_failed⟩

/-- C9: processing `CMiniMP3.h` in source order defines
`MINIMP3_FLOAT_OUTPUT` before the minimp3 include, so minimp3 compiles with
Float32 sample output, matching the streaming-decoder Float32 contract. -/
theorem wxyc_C9 :
    (runDirectives cMiniMP3Directives).minimp3SampleFormat =
      some CSampleFormat.float32 := by
  decide

/-- C10: an `ffsd_decode_next` call leaves the caller-visible decoder state
unchanged — same format answers, same decoder-owned blocks, same stream tail
— except that a successful call advances the decode position by one; the
block handed out through `outData` is (a read-only view of) exactly the
decoder-owned block at the pre-call position. -/
theorem wxyc_C10 {α : Type} (s : DecoderState α) :
    ffsd_get_sample_rate (ffsd_decode_next s).state = ffsd_get_sample_rate s ∧
    ffsd_get_channels (ffsd_decode_next s).state = ffsd_get_channels s ∧
    ffsd_get_is_interleaved (ffsd_decode_next s).state =
      ffsd_get_is_interleaved s ∧
    (ffsd_decode_next s).state.blocks = s.blocks ∧
    (ffsd_decode_next s).state.tail = s.tail ∧
    (0 < (ffsd_decode_next s).code →
      (ffsd_decode_next s).state = { s with pos := s.pos + 1 } ∧
      ∃ b, s.blocks[s.pos]? = some b ∧
        (ffsd_decode_next s).outData = some b.channels) := by
  refine ⟨rfl, rfl, rfl, decode_state_blocks s, decode_state_tail s, ?_⟩
  intro hpos
  unfold ffsd_decode_next at hpos ⊢
  rcases hb : s.blocks[s.pos]? with _ | b
  · rw [hb] at hpos
    rcases ht : s.tail with _ | n
    · rw [ht] at hpos
      simp at hpos
    · rw [ht] at hpos
      simp at hpos
      omega
  · rw [hb] at hpos
    exact ⟨rfl, b, rfl, rfl⟩

/-- C10 witness: on a concrete stream, a successful decode advances only the
position and hands out the decoder-owned block at the pre-call position. -/
theorem wxyc_C10_witness :
    0 < (ffsd_decode_next sampleState).code ∧
    ((ffsd_decode_next sampleState).state =
        { sampleState with pos := sampleState.pos + 1 } ∧
     ∃ b, sampleState.blocks[sampleState.pos]? = some b ∧
        (ffsd_decode_next sampleState).outData = some b.channels) :=
  ⟨by decide, (wxyc_C10 sampleState).2.2.2.2.2 (by decide)⟩

/-- C3: `ffsd_open` either fails with the NULL handle and a completely
untouched system (no resources acquired, no partial handle), or succeeds with
a fully initialised live handle for the addressed stream and exactly one
newly acquired resource set; an unsupported scheme always fails. -/
theorem wxyc_C3 {α : Type} (world : World α) (sys : SysState α) (url : String) :
    (schemeSupported url = false → ffsd_open world sys url = (none, sys)) ∧
    ((ffsd_open world sys url).1 = none → (ffsd_open world sys url).2 = sys) ∧
    (∀ h, (ffsd_open world sys url).1 = some h →
      ∃ blocks tail, world url = MediaResource.stream blocks tail ∧
        h = sys.nextId ∧
        (ffsd_open world sys url).2.handles.lookup h =
          some (⟨blocks, 0, tail⟩ : DecoderState α) ∧
        (ffsd_open world sys url).2.acquired = sys.acquired + 1) := by
  by_cases hs : schemeSupported url = true
  · rcases hw : world url with _ | _ | ⟨blocks, tail⟩
    · have hres : ffsd_open world sys url = (none, sys) := by
        unfold ffsd_open
        rw [if_pos hs, hw]
      rw [hres]
      exact ⟨fun _ => rfl, fun _ => rfl, fun h hh => nomatch hh⟩
    · have hres : ffsd_open world sys url = (none, sys) := by
        unfold ffsd_open
        rw [if_pos hs, hw]
      rw [hres]
      exact ⟨fun _ => rfl, fun _ => rfl, fun h hh => nomatch hh⟩
    · have hres : ffsd_open world sys url =
          (some sys.nextId,
            { handles := (sys.nextId, (⟨blocks, 0, tail⟩ : DecoderState α)) ::
                sys.handles,
              nextId := sys.nextId + 1,
              acquired := sys.acquired + 1 }) := by
        unfold ffsd_open
        rw [if_pos hs, hw]
      rw [hres]
      refine ⟨fun hc => ?_, fun hc => ?_, fun h hh => ?_⟩
      · simp [hc] at hs
      · simp at hc
      · obtain rfl : h = sys.nextId := (Option.some.inj hh).symm
        exact ⟨blocks, tail, rfl, rfl, by simp [List.lookup], rfl⟩
  · have hres : ffsd_open world sys url = (none, sys) := by
      unfold ffsd_open
      rw [if_neg hs]
    rw [hres]
    exact ⟨fun _ => rfl, fun _ => rfl, fun h hh => nomatch hh⟩

/-- C3 witness: an unsupported scheme fails and leaves the system untouched,
and a successful open on a valid stream yields a live, fully initialised
handle with one resource set acquired. -/
theorem wxyc_C3_witness :
    (schemeSupported "ftp://radio/audio.mp3" = false ∧
      ffsd_open sampleWorld sys0 "ftp://radio/audio.mp3" = (none, sys0)) ∧
    ((ffsd_open sampleWorld sys0 "http://validstream/audio.mp3").1 = some 0 ∧
      ∃ blocks tail,
        sampleWorld "http://validstream/audio.mp3" =
          MediaResource.stream blocks tail ∧
        0 = sys0.nextId ∧
        (ffsd_open sampleWorld sys0 "http://validstream/audio.mp3").2.handles.lookup 0 =
          some (⟨blocks, 0, tail⟩ : DecoderState Int) ∧
        (ffsd_open sampleWorld sys0 "http://validstream/audio.mp3").2.acquired =
          sys0.acquired + 1) :=
  ⟨⟨by decide, (wxyc_C3 sampleWorld sys0 "ftp://radio/audio.mp3").1 (by decide)⟩,
   ⟨by decide,
    (wxyc_C3 sampleWorld sys0 "http://validstream/audio.mp3").2.2 0 (by decide)⟩⟩

/-- C7: `close` is a permitted transition out of every live phase, the
terminal `closed` phase is reachable from every non-terminal phase, and
closing a handle twice equals closing it once (the second close finds the
handle absent and is the tolerated no-op). -/
theorem wxyc_C7 :
    (∀ p : Phase, p = Phase.ready ∨ p = Phase.eos ∨ p = Phase.failed →
      Step p Op.close Phase.closed) ∧
    (∀ p : Phase, p ≠ Phase.closed → Reaches p Phase.closed) ∧
    (∀ (α : Type) (sys : SysState α) (h : Option Nat),
      ffsd_close (ffsd_close sys h) h = ffsd_close sys h) := by
  refine ⟨?_, ?_, ?_⟩
  · rintro p (rfl | rfl | rfl)
    · exact Step.close_ready
    · exact Step.close_eos
    · exact Step.close_failed
  · intro p hp
    cases p with
    | unopened =>
        exact Reaches.step Step.open_ok
          (Reaches.step Step.close_ready (Reaches.refl _))
    | ready => exact Reaches.step Step.close_ready (Reaches.refl _)
    | eos => exact Reaches.step Step.close_eos (Reaches.refl _)
    | failed => exact Reaches.step Step.close_failed (Reaches.refl _)
    | closed => exact absurd rfl hp
  · intro α sys h
    cases h with
    | none => rfl
    | some id =>
        by_cases hl : (sys.handles.lookup id).isSome = true
        · have h1 : ffsd_close sys (some id) =
              { sys with
                handles := sys.handles.filter (fun p => p.1 != id),
                acquired := sys.acquired - 1 } := by
            simp [ffsd_close, hl]
          rw [h1]
          simp [ffsd_close, lookup_filter_ne]
        · have h1 : ffsd_close sys (some id) = sys := by
            simp [ffsd_close, hl]
          rw [h1, h1]

/-- C7 witness: `close` out of `ready`, reachability of `closed` from
`unopened`, and idempotence of close on a concrete system with a live
handle. -/
theorem wxyc_C7_witness :
    Step Phase.ready Op.close Phase.closed ∧
    Reaches Phase.unopened Phase.closed ∧
    ffsd_close (ffsd_close sampleSys (some 0)) (some 0) =
      ffsd_close sampleSys (some 0) :=
  ⟨wxyc_C7.1 Phase.ready (Or.inl rfl),
   wxyc_C7.2.1 Phase.unopened (by decide),
   wxyc_C7.2.2 Int sampleSys (some 0)⟩

/-- C8: opening a supported-scheme locator that addresses a valid, stable
stream (its tail is clean end-of-stream) succeeds, and on its handle every
`ffsd_decode_next` return code is non-negative, with code 0 (end-of-stream)
returned once the stream's blocks are drained. -/
theorem wxyc_C8 {α : Type} (world : World α) (sys : SysState α) (url : String)
    (blocks : List (Block α))
    (hscheme : schemeSupported url = true)
    (hworld : world url = MediaResource.stream blocks StreamTail.eof) :
    (ffsd_open world sys url).1 = some sys.nextId ∧
    (ffsd_open world sys url).2.handles.lookup sys.nextId =
      some (⟨blocks, 0, StreamTail.eof⟩ : DecoderState α) ∧
    (∀ k, 0 ≤ codeAt (⟨blocks, 0, StreamTail.eof⟩ : DecoderState α) k) ∧
    codeAt (⟨blocks, 0, StreamTail.eof⟩ : DecoderState α) blocks.length = 0 := by
  have hres : ffsd_open world sys url =
      (some sys.nextId,
        { handles := (sys.nextId,
            (⟨blocks, 0, StreamTail.eof⟩ : DecoderState α)) :: sys.handles,
          nextId := sys.nextId + 1,
          acquired := sys.acquired + 1 }) := by
    unfold ffsd_open
    rw [if_pos hscheme, hworld]
  refine ⟨by rw [hres], by rw [hres]; simp [List.lookup], ?_, ?_⟩
  · intro k
    unfold codeAt
    have htail : (decodeIter (⟨blocks, 0, StreamTail.eof⟩ : DecoderState α) k).tail =
        StreamTail.eof :=
      decodeIter_tail k _
    unfold ffsd_decode_next
    rcases hb : (decodeIter (⟨blocks, 0, StreamTail.eof⟩ : DecoderState α) k).blocks[
        (decodeIter (⟨blocks, 0, StreamTail.eof⟩ : DecoderState α) k).pos]? with _ | b
    · rw [htail]
    · simp
  · unfold codeAt
    have hpos : (decodeIter (⟨blocks, 0, StreamTail.eof⟩ : DecoderState α)
        blocks.length).pos = blocks.length := by
      simpa using decodeIter_pos blocks.length
        (⟨blocks, 0, StreamTail.eof⟩ : DecoderState α) (by simp)
    have hblocks : (decodeIter (⟨blocks, 0, StreamTail.eof⟩ : DecoderState α)
        blocks.length).blocks = blocks :=
      decodeIter_blocks _ _
    have htail : (decodeIter (⟨blocks, 0, StreamTail.eof⟩ : DecoderState α)
        blocks.length).tail = StreamTail.eof :=
      decodeIter_tail _ _
    unfold ffsd_decode_next
    rw [hpos, hblocks, List.getElem?_eq_none (le_refl blocks.length), htail]

/-- C8 witness: the concrete valid one-block stream opens successfully, its
first decode code is non-negative, and the call after draining the single
block returns 0. -/
theorem wxyc_C8_witness :
    schemeSupported "http://validstream/audio.mp3" = true ∧
    sampleWorld "http://validstream/audio.mp3" =
      MediaResource.stream [sampleBlock] StreamTail.eof ∧
    (ffsd_open sampleWorld sys0 "http://validstream/audio.mp3").1 =
      some sys0.nextId ∧
    0 ≤ codeAt (⟨[sampleBlock], 0, StreamTail.eof⟩ : DecoderState Int) 0 ∧
    codeAt (⟨[sampleBlock], 0, StreamTail.eof⟩ : DecoderState Int)
      [sampleBlock].length = 0 :=
  ⟨by decide, by decide,
   (wxyc_C8 sampleWorld sys0 "http://validstream/audio.mp3" [sampleBlock]
      (by decide) (by decide)).1,
   (wxyc_C8 sampleWorld sys0 "http://validstream/audio.mp3" [sampleBlock]
      (by decide) (by decide)).2.2.1 0,
   (wxyc_C8 sampleWorld sys0 "http://validstream/audio.mp3" [sampleBlock]
      (by decide) (by decide)).2.2.2⟩

end WXYC
